import Mathlib

/-!
Shallow embedding of the SCI (Server Command Interface) and File System
Service protocol layer of the `python-devicecloud` library, restricted to
the parts exercised by the verified claims:

* `devicecloud/sci.py` — target rendering, the SCI request envelope
  template, `send_sci`, `send_sci_async`, and the `AsyncRequestProxy`
  polling state machine;
* `devicecloud/file_system_service.py` — the four file-system command
  variants, their response parsers, `send_command_block`, `list_files`
  and `exists`.

XML documents are modelled by a small element tree (`Elem`); Python
exceptions by the `PyError` sum returned through `Except`.  Machine-level
concerns (HTTP transport, sockets) are out of scope: a network response
enters the model as its already parsed element tree, exactly the value
`xml.etree.ElementTree.fromstring` hands to the Python code.
-/

/-- The Python exceptions that the embedded code can raise.  `typeError`,
`valueError` and `attributeError` are the built-ins; `fssException` is
`FileSystemServiceException`; `responseParseError` is its subclass
`ResponseParseError`; `binasciiError` is the error raised by
`base64.b64decode` on malformed input. -/
inductive PyError where
  | typeError
  | valueError
  | attributeError
  | fssException
  | responseParseError
  | binasciiError
deriving Repr, DecidableEq

/-- An XML element as produced by `xml.etree.ElementTree`: a tag, an
attribute mapping (attribute names are unique), the text immediately
following the opening tag (`None` when empty), and the child elements. -/
inductive Elem where
  | mk (tag : String) (attrs : List (String × String)) (text : Option String)
      (children : List Elem)

def Elem.tag : Elem → String
  | .mk t _ _ _ => t

def Elem.attrs : Elem → List (String × String)
  | .mk _ a _ _ => a

def Elem.text : Elem → Option String
  | .mk _ _ x _ => x

def Elem.children : Elem → List Elem
  | .mk _ _ _ c => c

/-- `element.get(key)`: look up an attribute, `None` when absent. -/
def Elem.attr (e : Elem) (key : String) : Option String :=
  (e.attrs.find? (fun p => p.1 == key)).map (·.2)

/-- `element.find('./tag')`: the first direct child with the given tag. -/
def findChild (e : Elem) (tag : String) : Option Elem :=
  e.children.find? (fun c => c.tag == tag)

/-- `element.findall('./tag')`: every direct child with the given tag,
in document order. -/
def findAll (e : Elem) (tag : String) : List Elem :=
  e.children.filter (fun c => c.tag == tag)

mutual
/-- Helper for `element.find('.//tag')`: the element itself if it
matches, else the first match below it in preorder. -/
def findDescElem (tag : String) : Elem → Option Elem
  | .mk t a x c => if t = tag then some (.mk t a x c) else findDescList tag c

/-- Helper for `element.find('.//tag')`: first match in a preorder walk
of a forest. -/
def findDescList (tag : String) : List Elem → Option Elem
  | [] => none
  | e :: rest =>
    match findDescElem tag e with
    | some r => some r
    | none => findDescList tag rest
end

/-- `element.find('.//tag')`: the first descendant (the element itself
excluded) with the given tag, in document order. -/
def findDesc (e : Elem) (tag : String) : Option Elem :=
  findDescList tag e.children

/-- Value of a string of decimal digits. -/
def digitsVal (cs : List Char) : Nat :=
  cs.foldl (fun acc c => acc * 10 + (c.toNat - '0'.toNat)) 0

def isDigitChar (c : Char) : Bool :=
  '0' ≤ c && c ≤ '9'

def isAsciiWhitespace (c : Char) : Bool :=
  c == ' ' || c == '\t' || c == '\n' || c == '\r'

/-- Strip leading and trailing whitespace, as `int()` does before
conversion. -/
def stripWs (cs : List Char) : List Char :=
  ((cs.dropWhile isAsciiWhitespace).reverse.dropWhile isAsciiWhitespace).reverse

/-- Python `int(s)` on a string: optional sign and a nonempty digit run
after stripping surrounding whitespace, `ValueError` otherwise. -/
def pyInt (s : String) : Except PyError Int :=
  match stripWs s.toList with
  | '-' :: rest =>
    if rest ≠ [] && rest.all isDigitChar then .ok (-(digitsVal rest : Int))
    else .error .valueError
  | '+' :: rest =>
    if rest ≠ [] && rest.all isDigitChar then .ok (digitsVal rest : Int)
    else .error .valueError
  | cs =>
    if cs ≠ [] && cs.all isDigitChar then .ok (digitsVal cs : Int)
    else .error .valueError

/-- Python `int(x)` where `x` is an optional string: `int(None)` raises
`TypeError`. -/
def pyIntOpt : Option String → Except PyError Int
  | none => .error .typeError
  | some s => pyInt s

/-- The base64 alphabet used by `base64.b64encode`/`b64decode`. -/
def b64Alphabet : List Char :=
  "ABCDEFGHIJKLMNOPQRSTUVWXYZabcdefghijklmnopqrstuvwxyz0123456789+/".toList

def b64CharOf (n : Nat) : Char :=
  b64Alphabet.getD n 'A'

/-- Encode a byte sequence (each entry `< 256`) in groups of three bytes
to four base64 characters, padding the final group with `=`. -/
def b64EncodeChunks : List Nat → List Char
  | [] => []
  | [a] =>
    [b64CharOf (a / 4), b64CharOf (a % 4 * 16), '=', '=']
  | [a, b] =>
    [b64CharOf (a / 4), b64CharOf (a % 4 * 16 + b / 16), b64CharOf (b % 16 * 4), '=']
  | a :: b :: c :: rest =>
    b64CharOf (a / 4) :: b64CharOf (a % 4 * 16 + b / 16) ::
      b64CharOf (b % 16 * 4 + c / 64) :: b64CharOf (c % 64) :: b64EncodeChunks rest

/-- `base64.b64encode(data).decode('ascii')`. -/
def b64encode (bs : List Nat) : String :=
  String.mk (b64EncodeChunks bs)

/-- Index of a character in the base64 alphabet. -/
def b64Index (c : Char) : Option Nat :=
  b64Alphabet.indexOf? c

/-- Decode base64 character groups of four; `=` padding is only legal in
the last one or two positions of the final group. -/
def b64DecodeGroups : List Char → Except PyError (List Nat)
  | [] => .ok []
  | c1 :: c2 :: c3 :: c4 :: rest =>
    match b64Index c1, b64Index c2 with
    | some v1, some v2 =>
      if c3 = '=' then
        if c4 = '=' && rest.isEmpty then .ok [v1 * 4 + v2 / 16]
        else .error .binasciiError
      else
        match b64Index c3 with
        | some v3 =>
          if c4 = '=' then
            if rest.isEmpty then .ok [v1 * 4 + v2 / 16, v2 % 16 * 16 + v3 / 4]
            else .error .binasciiError
          else
            match b64Index c4 with
            | some v4 => do
              let tail ← b64DecodeGroups rest
              .ok ((v1 * 4 + v2 / 16) :: (v2 % 16 * 16 + v3 / 4) :: (v3 % 4 * 64 + v4) :: tail)
            | none => .error .binasciiError
        | none => .error .binasciiError
    | _, _ => .error .binasciiError
  | _ => .error .binasciiError

/-- `base64.b64decode(s)`: characters outside the alphabet (other than
padding) are discarded; the remaining length must be a multiple of four. -/
def b64decode (s : String) : Except PyError (List Nat) :=
  b64DecodeGroups (s.toList.filter (fun c => (b64Index c).isSome || c == '='))

/-! ## `devicecloud/sci.py` -/

/-- `DeviceTarget.to_xml`. -/
def deviceTarget_to_xml (device_id : String) : String :=
  "<device id=\"" ++ device_id ++ "\"/>"

/-- `AllTarget.to_xml`. -/
def allTarget_to_xml : String :=
  "<device id=\"all\"/>"

/-- `TagTarget.to_xml`. -/
def tagTarget_to_xml (tag : String) : String :=
  "<device tag=\"" ++ tag ++ "\"/>"

/-- `GroupTarget.to_xml`.  The source interpolates into
`'<group path="{}">'` — note the missing `/` before the closing angle
bracket. -/
def groupTarget_to_xml (group : String) : String :=
  "<group path=\"" ++ group ++ "\">"

/-- `s.endswith(suffix)` on Python strings (sequences of code points). -/
def strEndsWith (s suffix : String) : Bool :=
  suffix.toList.isSuffixOf s.toList

/-- `SCI_TEMPLATE.format(...)`.  `SCI_TEMPLATE` is the triple-quoted
string of `sci.py` after `.replace("  ", "").replace("\r", "").replace("\n", "")`,
which flattens it to
`<sci_request version="1.0"><` `{operation}{synchronous}{cache}{sync_timeout}{allow_offline}{wait_for_reconnect}`
`><targets>` `{targets}` `</targets>` `{payload}` `</` `{operation}` `></sci_request>`.
The template has no slot for the `reply` attribute, so the `reply`
keyword argument passed to `.format` by `send_sci` is ignored. -/
def sciTemplateFormat (operation synchronous_xml cache_xml sync_timeout_xml
    allow_offline_xml wait_for_reconnect_xml targets_xml payload : String) : String :=
  "<sci_request version=\"1.0\"><" ++ operation ++ synchronous_xml ++ cache_xml ++
    sync_timeout_xml ++ allow_offline_xml ++ wait_for_reconnect_xml ++
    "><targets>" ++ targets_xml ++ "</targets>" ++ payload ++ "</" ++ operation ++
    "></sci_request>"

/-- The repeated option-rendering pattern of `send_sci`:
`' name="{}"'.format('true' if value else 'false')` when the option is
not `None`, the empty string otherwise. -/
def boolAttr (name : String) : Option Bool → String
  | none => ""
  | some b => " " ++ name ++ "=\"" ++ (if b then "true" else "false") ++ "\""

/-- `' reply="{}"'.format(reply)` when `reply` is not `None`. -/
def replyAttr : Option String → String
  | none => ""
  | some r => " reply=\"" ++ r ++ "\""

/-- `' syncTimeout="{}"'.format(sync_timeout)` when not `None`. -/
def syncTimeoutAttr : Option Int → String
  | none => ""
  | some st => " syncTimeout=\"" ++ toString st ++ "\""

/-- `ServerCommandInterfaceAPI.send_sci`, up to the point where the built
envelope is handed to the transport (`self._conn.post`): the returned
string is the POST body.  `targets` is the list of already-rendered
`to_xml` fragments (the payload/target `isinstance` checks hold by
typing here).  The source's `sync_timeout` validation reads
`if not sync_timeout is None or isinstance(sync_timeout, six.integer_types): raise TypeError(...)`,
which raises for every non-`None` value and passes for `None`. -/
def send_sci (operation : String) (targets : List String) (payload : String)
    (reply : Option String) (synchronous : Option Bool) (sync_timeout : Option Int)
    (cache : Option Bool) (allow_offline : Option Bool)
    (wait_for_reconnect : Option Bool) : Except PyError String :=
  let targets_xml := String.join targets
  let _reply_xml := replyAttr reply
  let synchronous_xml := boolAttr "synchronous" synchronous
  if sync_timeout.isSome then .error .typeError
  else
    let sync_timeout_xml := syncTimeoutAttr sync_timeout
    let cache_xml := boolAttr "cache" cache
    let allow_offline_xml := boolAttr "allowOffline" allow_offline
    let wait_for_reconnect_xml := boolAttr "waitForReconnect" wait_for_reconnect
    .ok (sciTemplateFormat operation synchronous_xml cache_xml sync_timeout_xml
      allow_offline_xml wait_for_reconnect_xml targets_xml payload)

/-- The object returned by a successful `send_sci_async`. -/
structure AsyncRequestProxy where
  job_id : Int
deriving Repr, DecidableEq

/-- `ServerCommandInterfaceAPI.send_sci_async`.  The immediate transport
reply enters the model as its parsed document `respDom`.  The result
pairs the envelope that was POSTed with the outcome: `none` when the
reply holds no `jobId` element, otherwise a proxy for the parsed job id.
The assignment `sci_options['synchronous'] = False` overwrites whatever
value the caller supplied, so the caller's `synchronous` option is not a
parameter here. -/
def send_sci_async (operation : String) (targets : List String) (payload : String)
    (reply : Option String) (sync_timeout : Option Int) (cache : Option Bool)
    (allow_offline : Option Bool) (wait_for_reconnect : Option Bool)
    (respDom : Elem) : Except PyError (String × Option AsyncRequestProxy) := do
  let envelope ← send_sci operation targets payload reply (some false) sync_timeout
    cache allow_offline wait_for_reconnect
  match findDesc respDom "jobId" with
  | none => .ok (envelope, none)
  | some job_element => do
    let job_id ← pyIntOpt job_element.text
    .ok (envelope, some ⟨job_id⟩)

/-- One reply of the `GET /ws/sci/{job_id}` endpoint: the raw body
(`resp.content`) and its parsed document. -/
structure PollReply where
  content : String
  dom : Elem

/-- The polled connection: `fetch k` is the reply to the `k`-th GET
issued so far, `calls` counts the GETs performed. -/
structure Conn where
  fetch : Nat → PollReply
  calls : Nat

/-- One read of the `AsyncRequestProxy.completed` property.  Input is the
current `self.response` cache and the connection; output is the value of
the property, the new cache, and the new connection state. -/
def completedRead (response : Option String) (conn : Conn) :
    Bool × Option String × Conn :=
  match response with
  | some r => (true, some r, conn)
  | none =>
    let resp := conn.fetch conn.calls
    let conn2 : Conn := ⟨conn.fetch, conn.calls + 1⟩
    match findDesc resp.dom "status" with
    | some status =>
      if status.text == some "complete" then (true, some resp.content, conn2)
      else (false, none, conn2)
    | none => (false, none, conn2)

/-- Cache and connection state after `n` reads of `completed`. -/
def readState : Nat → Option String → Conn → Option String × Conn
  | 0, r, c => (r, c)
  | n + 1, r, c =>
    let s := completedRead r c
    readState n s.2.1 s.2.2

/-- Whether a polled reply reports completion: its document has a
`status` descendant whose text is `"complete"`. -/
def isCompleteReply (p : PollReply) : Bool :=
  match findDesc p.dom "status" with
  | some status => status.text == some "complete"
  | none => false

/-! ## `devicecloud/file_system_service.py` -/

/-- `ErrorInfo`: the constructor applies `int(...)` to the error id, so
`errno` is an integer here; the conversion itself is part of
`parse_error_tree`. -/
structure ErrorInfo where
  errno : Int
  message : Option String
deriving Repr, DecidableEq

/-- `_parse_error_tree(error)`: `ErrorInfo(int(error.get('id')), None)`,
then the message comes from `error.text` when that is not `None`, else
from the text of a `desc` child when present. -/
def parse_error_tree (error : Elem) : Except PyError ErrorInfo := do
  let errno ← pyIntOpt (error.attr "id")
  let message :=
    match error.text with
    | some t => some t
    | none =>
      match findChild error "desc" with
      | some desc => desc.text
      | none => none
  .ok ⟨errno, message⟩

/-- `FileInfo`, without the `fssapi` back-reference (it carries no data,
only the ability to issue further calls). -/
structure FileInfo where
  device_id : String
  path : Option String
  last_modified : Int
  size : Int
  hash : Option String
  hash_type : Option String
deriving Repr, DecidableEq

/-- `DirectoryInfo`, without the `fssapi` back-reference. -/
structure DirectoryInfo where
  device_id : String
  path : Option String
  last_modified : Int
deriving Repr, DecidableEq

/-- `LsInfo = namedtuple('LsInfo', ['directories', 'files'])`. -/
structure LsInfo where
  directories : List DirectoryInfo
  files : List FileInfo
deriving Repr, DecidableEq

/-- A parsed per-command result, i.e. the Python value a
`parse_response` call returns: an `LsInfo`, the decoded bytes of a
`get_file`, `None` (for `put_file` and `rm`), or an `ErrorInfo`. -/
inductive FSResult where
  | ls (info : LsInfo)
  | fileData (data : List Nat)
  | pyNone
  | err (e : ErrorInfo)
deriving Repr, DecidableEq

/-- `LsCommand.parse_response(response, device_id, fssapi)`.
`fssapiProvided` stands for `fssapi is not None`. -/
def ls_parse_response (response : Elem) (device_id : Option String)
    (fssapiProvided : Bool) : Except PyError FSResult :=
  if response.tag ≠ "ls" then .error .responseParseError
  else if fssapiProvided = false then .error .fssException
  else
    match device_id with
    | none => .error .fssException
    | some devId =>
      match findChild response "error" with
      | some error => (parse_error_tree error).map FSResult.err
      | none => do
        let hash_type := response.attr "hash"
        let files ← (findAll response "file").mapM (fun myfile => do
          let lm ← pyIntOpt (myfile.attr "last_modified")
          let sz ← pyIntOpt (myfile.attr "size")
          pure (FileInfo.mk devId (myfile.attr "path") lm sz (myfile.attr "hash") hash_type))
        let dirs ← (findAll response "dir").mapM (fun mydir => do
          let lm ← pyIntOpt (mydir.attr "last_modified")
          pure (DirectoryInfo.mk devId (mydir.attr "path") lm))
        .ok (.ls ⟨dirs, files⟩)

/-- `GetCommand.parse_response(response)`.  A missing `data` child makes
`response.find('./data').text` dereference `None` (`AttributeError`);
a `data` child without text makes `six.b(None)` raise `TypeError`. -/
def get_parse_response (response : Elem) : Except PyError FSResult :=
  if response.tag ≠ "get_file" then .error .responseParseError
  else
    match findChild response "error" with
    | some error => (parse_error_tree error).map FSResult.err
    | none =>
      match findChild response "data" with
      | none => .error .attributeError
      | some data_el =>
        match data_el.text with
        | none => .error .typeError
        | some t => (b64decode t).map FSResult.fileData

/-- `PutCommand.parse_response(response)`. -/
def put_parse_response (response : Elem) : Except PyError FSResult :=
  if response.tag ≠ "put_file" then .error .responseParseError
  else
    match findChild response "error" with
    | some error => (parse_error_tree error).map FSResult.err
    | none => .ok .pyNone

/-- `DeleteCommand.parse_response(response)`. -/
def delete_parse_response (response : Elem) : Except PyError FSResult :=
  if response.tag ≠ "rm" then .error .responseParseError
  else
    match findChild response "error" with
    | some error => (parse_error_tree error).map FSResult.err
    | none => .ok .pyNone

/-- `PutCommand.__init__(path, file_data, server_file, offset, truncate)`,
returning the element the command serializes to.  `file_data` is a byte
sequence, so the `isinstance(file_data, six.binary_type)` check holds by
typing. -/
def put_command_init (path : String) (file_data : Option (List Nat))
    (server_file : Option String) (offset : Option Int) (truncate : Bool) :
    Except PyError Elem :=
  if file_data.isSome && server_file.isSome then .error .fssException
  else
    let attrs := [("path", path), ("truncate", if truncate then "true" else "false")] ++
      (match offset with
       | some o => [("offset", toString o)]
       | none => [])
    match file_data with
    | some d => .ok (.mk "put_file" attrs none [.mk "data" [] (some (b64encode d)) []])
    | none =>
      match server_file with
      | some sf => .ok (.mk "put_file" attrs none [.mk "file" [] (some sf) []])
      | none => .error .fssException

/-- The four entries of `FILE_SYSTEM_COMMANDS`, identified by class. -/
inductive FSCommandKind where
  | ls
  | getFile
  | putFile
  | rm
deriving Repr, DecidableEq

/-- The `command_name` class attribute of each command class. -/
def command_name : FSCommandKind → String
  | .ls => "ls"
  | .getFile => "get_file"
  | .putFile => "put_file"
  | .rm => "rm"

/-- `FILE_SYSTEM_COMMANDS = [LsCommand, GetCommand, PutCommand, DeleteCommand]`. -/
def FILE_SYSTEM_COMMANDS : List FSCommandKind :=
  [.ls, .getFile, .putFile, .rm]

/-- `tag.lower()`, character by character. -/
def pyLower (s : String) : String :=
  String.mk (s.toList.map Char.toLower)

/-- The scan `for command_class in FILE_SYSTEM_COMMANDS: if
command_class.command_name == command.tag.lower()` of
`send_command_block`, as the first matching class. -/
def classify (tag : String) : Option FSCommandKind :=
  FILE_SYSTEM_COMMANDS.find? (fun c => command_name c == pyLower tag)

/-- Dispatch to the matched class's `parse_response`; `send_command_block`
passes `fssapi=self` (never `None`) and the device's `id` attribute. -/
def parse_response_of (c : FSCommandKind) (response : Elem)
    (device_id : Option String) : Except PyError FSResult :=
  match c with
  | .ls => ls_parse_response response device_id true
  | .getFile => get_parse_response response
  | .putFile => put_parse_response response
  | .rm => delete_parse_response response

/-- The inner loop of `send_command_block` over the children of a
device's `commands` node: children whose (lowercased) tag matches no
command class are passed over, matched children are parsed in order and
a parse exception aborts the whole call. -/
def parse_commands_children (children : List Elem) (device_id : Option String) :
    Except PyError (List FSResult) :=
  match children with
  | [] => .ok []
  | command :: rest =>
    match classify command.tag with
    | none => parse_commands_children rest device_id
    | some c => do
      let r ← parse_response_of c command device_id
      let rs ← parse_commands_children rest device_id
      .ok (r :: rs)

/-- `root.findall('./file_system/device')`. -/
def root_devices (root : Elem) : List Elem :=
  (findAll root "file_system").flatMap (fun fs => findAll fs "device")

/-- `out_dict[key] = value` on a Python `dict` modelled as an insertion
ordered association list: replace in place when the key is present,
append otherwise. -/
def dict_set {α : Type} (d : List (Option String × α)) (k : Option String) (v : α) :
    List (Option String × α) :=
  if d.any (fun p => p.1 == k) then d.map (fun p => if p.1 == k then (k, v) else p)
  else d ++ [(k, v)]

/-- The response-walking loop of `FileSystemServiceAPI.send_command_block`.
For each `device` subtree the code iterates directly over
`device.find('./commands')`, so a device without a `commands` child (for
example one carrying only an `error`) makes the `for` statement iterate
over `None` and raise `TypeError`. -/
def send_command_block_parse_aux (devices : List Elem)
    (acc : List (Option String × List FSResult)) :
    Except PyError (List (Option String × List FSResult)) :=
  match devices with
  | [] => .ok acc
  | device :: rest => do
    let device_id := device.attr "id"
    let results ←
      match findChild device "commands" with
      | none => (.error .typeError : Except PyError (List FSResult))
      | some commands => parse_commands_children commands.children device_id
    send_command_block_parse_aux rest (dict_set acc device_id results)

/-- `send_command_block`, from the parsed response document to the
returned `device_id -> results` mapping. -/
def send_command_block_parse (root : Elem) :
    Except PyError (List (Option String × List FSResult)) :=
  send_command_block_parse_aux (root_devices root) []

/-- `device.find('./commands/ls')`: first `ls` grandchild through a
`commands` child, in document order. -/
def find_commands_ls (device : Elem) : Option Elem :=
  ((findAll device "commands").flatMap (fun c => findAll c "ls")).head?

/-- The response-walking loop of `FileSystemServiceAPI.list_files`: a
device-level `error` child maps the device to the parsed `ErrorInfo`,
otherwise the `commands/ls` subtree is parsed; a missing `ls` reply makes
`parse_response` dereference `None.tag` (`AttributeError`). -/
def list_files_parse_aux (devices : List Elem)
    (acc : List (Option String × FSResult)) :
    Except PyError (List (Option String × FSResult)) :=
  match devices with
  | [] => .ok acc
  | device :: rest => do
    let device_id := device.attr "id"
    let value ←
      match findChild device "error" with
      | some error => (parse_error_tree error).map FSResult.err
      | none =>
        match find_commands_ls device with
        | none => (.error .attributeError : Except PyError FSResult)
        | some lsel => ls_parse_response lsel device_id true
    list_files_parse_aux rest (dict_set acc device_id value)

/-- `list_files`, from the parsed response document to the returned
`device_id -> LsInfo-or-ErrorInfo` mapping. -/
def list_files_parse (root : Elem) : Except PyError (List (Option String × FSResult)) :=
  list_files_parse_aux (root_devices root) []

/-- `path[:-len(path_sep)] if path.endswith(path_sep) else path`, the
trailing-separator strip at the start of `FileSystemServiceAPI.exists`.
For an empty separator Python evaluates `path[:-0]`, i.e. `path[:0]`,
the empty string (and `endswith('')` is always true). -/
def exists_strip (path path_sep : String) : String :=
  if strEndsWith path path_sep then
    if path_sep.length = 0 then ""
    else String.mk (path.toList.take (path.length - path_sep.length))
  else path

/-- Whether the separator occurs starting at position `i` of `s`. -/
def strContainsAt (s sep : List Char) (i : Nat) : Bool :=
  sep.isPrefixOf (s.drop i)

/-- Position of the last occurrence of `sep` in `s`, if any. -/
def lastOccurrence (s sep : List Char) : Option Nat :=
  ((List.range (s.length + 1)).filter (strContainsAt s sep)).getLast?

/-- Whether `sep` occurs anywhere in `s` (Python `sep in s`, for a
nonempty `sep`). -/
def strContainsSub (s sep : String) : Bool :=
  (List.range (s.length + 1)).any (strContainsAt s.toList sep.toList)

/-- `par_dir, filename = path.rsplit(path_sep, 1)`: splitting at the last
occurrence of the separator.  `rsplit` with an empty separator raises
`ValueError`; with no occurrence it returns a one-element list and the
two-name unpacking raises `ValueError`. -/
def py_rsplit_once (s sep : String) : Except PyError (String × String) :=
  if sep.length = 0 then .error .valueError
  else
    match lastOccurrence s.toList sep.toList with
    | none => .error .valueError
    | some i => .ok (String.mk (s.toList.take i), String.mk (s.toList.drop (i + sep.length)))

/-- The portion of `exists` that runs before any network request: strip
one trailing separator, then split off the parent directory.  Returns
`(par_dir, path)` where `path` is the stripped path the listing entries
are compared against. -/
def exists_presplit (path path_sep : String) : Except PyError (String × String) := do
  let path2 := exists_strip path path_sep
  let (par_dir, _filename) ← py_rsplit_once path2 path_sep
  .ok (par_dir, path2)

/-- The body of the per-device loop of `exists`: an `ErrorInfo` passes
through; for a listing the flag starts `False` and each file then each
directory entry whose `path` equals the stripped path sets it `True`.
Any other value would make `device_data.files` raise `AttributeError`
(unreachable from `list_files`). -/
def exists_check_device (path2 : String) (device_data : FSResult) :
    Except PyError (ErrorInfo ⊕ Bool) :=
  match device_data with
  | .err e => .ok (Sum.inl e)
  | .ls info =>
    let afterFiles := info.files.foldl
      (fun acc cur_file => if cur_file.path == some path2 then true else acc) false
    let result := info.directories.foldl
      (fun acc cur_dir => if cur_dir.path == some path2 then true else acc) afterFiles
    .ok (Sum.inr result)
  | _ => .error .attributeError

/-- The output loop of `exists` over the `list_files` result. -/
def exists_post (path2 : String) (items : List (Option String × FSResult))
    (acc : List (Option String × (ErrorInfo ⊕ Bool))) :
    Except PyError (List (Option String × (ErrorInfo ⊕ Bool))) :=
  match items with
  | [] => .ok acc
  | (device_id, device_data) :: rest => do
    let r ← exists_check_device path2 device_data
    exists_post path2 rest (dict_set acc device_id r)

/-- `FileSystemServiceAPI.exists(target, path, path_sep)`: the reply to
the single `list_files` request enters as its parsed document `reply`. -/
def fs_exists (path path_sep : String) (reply : Elem) :
    Except PyError (List (Option String × (ErrorInfo ⊕ Bool))) := do
  let (_par_dir, path2) ← exists_presplit path path_sep
  let file_list ← list_files_parse reply
  exists_post path2 file_list []

/-! ## Relational specifications used by the theorems -/

/-- The reply elements under one device's `commands` node match the
submitted command list positionally: the `j`-th reply's (lowercased) tag
selects the `j`-th submitted command's class and parses to the `j`-th
result. -/
inductive RepliesMatch (device_id : Option String) :
    List Elem → List FSCommandKind → List FSResult → Prop
  | nil : RepliesMatch device_id [] [] []
  | cons {reply : Elem} {c : FSCommandKind} {r : FSResult}
      {replies : List Elem} {cmds : List FSCommandKind} {rs : List FSResult} :
      classify reply.tag = some c →
      parse_response_of c reply device_id = .ok r →
      RepliesMatch device_id replies cmds rs →
      RepliesMatch device_id (reply :: replies) (c :: cmds) (r :: rs)

/-- A device subtree in a wholly successful response: it carries an `id`
attribute and a `commands` node whose children answer the submitted
commands one-to-one in submission order. -/
def DeviceSucceeds (device : Elem) (devId : String) (cmds : List FSCommandKind)
    (rs : List FSResult) : Prop :=
  device.attr "id" = some devId ∧
    ∃ commandsNode, findChild device "commands" = some commandsNode ∧
      RepliesMatch (some devId) commandsNode.children cmds rs

/-- Pointwise match between the device subtrees of a response and the
per-device expected ids and result lists. -/
inductive DevicesMatch (cmds : List FSCommandKind) :
    List Elem → List String → List (List FSResult) → Prop
  | nil : DevicesMatch cmds [] [] []
  | cons {device : Elem} {devId : String} {rs : List FSResult}
      {devices : List Elem} {ids : List String} {rss : List (List FSResult)} :
      DeviceSucceeds device devId cmds rs →
      DevicesMatch cmds devices ids rss →
      DevicesMatch cmds (device :: devices) (devId :: ids) (rs :: rss)

/-- Expected relation between one `list_files` entry and the
corresponding `exists` entry: errors pass through, a listing maps to the
existence flag, which is set exactly when some file or some directory of
the listing has the stripped path. -/
def EntryMatches (path2 : String) : FSResult → (ErrorInfo ⊕ Bool) → Prop
  | .err e, .inl e2 => e2 = e
  | .ls info, .inr b =>
      b = true ↔ ((∃ f ∈ info.files, f.path = some path2) ∨
        (∃ d ∈ info.directories, d.path = some path2))
  | _, _ => False

/-! ## Concrete documents used by counterexamples and witnesses -/

/-- A reply in which the only device answers with a device-level error
and no `commands` node (the shape of the test fixture
`EXAMPLE_SCI_DEVICE_NOT_CONNECTED`, inside a `file_system` operation). -/
def deviceErrorReply : Elem :=
  .mk "sci_reply" [("version", "1.0")] none
    [.mk "file_system" [] none
      [.mk "device" [("id", "00000000-00000000-00409DFF-FF58175B")] none
        [.mk "error" [("id", "2001")] none
          [.mk "desc" [] (some "Device Not Connected") []]]]]

/-- A successful `ls` reply element with one file and one directory. -/
def lsReplyElem : Elem :=
  .mk "ls" [("hash", "md5")] none
    [.mk "file" [("path", "/a/f"), ("last_modified", "5"), ("size", "3"), ("hash", "h")]
      none [],
     .mk "dir" [("path", "/a/d"), ("last_modified", "7")] none []]

/-- A successful `rm` reply element. -/
def rmReplyElem : Elem :=
  .mk "rm" [] none []

/-- A `commands` node answering an `ls` and an `rm`, in that order. -/
def commandsNodeLsRm : Elem :=
  .mk "commands" [] none [lsReplyElem, rmReplyElem]

/-- A device subtree answering the two-command block successfully. -/
def okDeviceElem (id : String) : Elem :=
  .mk "device" [("id", id)] none [commandsNodeLsRm]

/-- A two-device reply to a two-command block (an `ls` and an `rm`),
every device succeeding. -/
def twoDeviceOkReply : Elem :=
  .mk "sci_reply" [] none
    [.mk "file_system" [] none [okDeviceElem "A", okDeviceElem "B"]]

/-- The parsed `ls` listing of `lsReplyElem` for a device id. -/
def lsInfoFor (devId : String) : LsInfo :=
  ⟨[⟨devId, some "/a/d", 7⟩], [⟨devId, some "/a/f", 5, 3, some "h", some "md5"⟩]⟩

/-- A single-device reply to a one-command `ls` block, as issued by
`list_files` on behalf of `exists`. -/
def oneDeviceLsReply : Elem :=
  .mk "sci_reply" [] none
    [.mk "file_system" [] none
      [.mk "device" [("id", "A")] none [.mk "commands" [] none [lsReplyElem]]]]

/-- An immediate async-dispatch reply carrying a `jobId` (the shape of
the test fixture `EXAMPLE_ASYNC_SCI_RESPONSE`). -/
def jobIdReply : Elem :=
  .mk "sci_reply" [("version", "1.0")] none
    [.mk "send_message" [] none [.mk "jobId" [] (some "133225503") []]]

/-- An immediate async-dispatch reply with no `jobId` element (the shape
of the test fixture `EXAMPLE_SCI_BAD_DEVICE`). -/
def noJobIdReply : Elem :=
  .mk "sci_reply" [("version", "1.0")] none
    [.mk "send_message" [] none
      [.mk "device" [("id", "00010000-00000000-03599990-42983300")] none
        [.mk "error" [("id", "303")] none
          [.mk "desc" [] (some "Invalid target. Device not found.") []]],
       .mk "error" [] (some "Invalid SCI request. No valid targets found.") []]]

/-- A poll stream whose first reply is `in_progress` and whose second
reply (and any later one) is `complete`. -/
def pollStreamEx : Nat → PollReply
  | 0 => ⟨"<sci_reply><status>in_progress</status></sci_reply>",
      .mk "sci_reply" [] none [.mk "status" [] (some "in_progress") []]⟩
  | _ + 1 => ⟨"<sci_reply><status>complete</status><x/></sci_reply>",
      .mk "sci_reply" [] none [.mk "status" [] (some "complete") [], .mk "x" [] none []]⟩

/-- The envelope `send_sci` builds for a `send_message` to the broadcast
target with payload `<reset/>`, the `reply="all"` option supplied and
every other option `None`.  No `reply` attribute appears in it. -/
def c2Envelope : String :=
  "<sci_request version=\"1.0\"><send_message><targets><device id=\"all\"/></targets><reset/></send_message></sci_request>"

/-- The envelope `send_sci_async` builds for a `send_message` to device
`D` with payload `<p/>` and no caller options. -/
def c8Envelope : String :=
  "<sci_request version=\"1.0\"><send_message synchronous=\"false\"><targets><device id=\"D\"/></targets><p/></send_message></sci_request>"

/-! ## Helper lemmas -/

theorem except_bind_ok {ε α β : Type} {x : Except ε α} {f : α → Except ε β} {b : β} :
    (x >>= f) = .ok b ↔ ∃ a, x = .ok a ∧ f a = .ok b := by
  cases x <;> simp [Bind.bind, Except.bind]

theorem except_map_ok {ε α β : Type} {x : Except ε α} {g : α → β} {b : β} :
    x.map g = .ok b ↔ ∃ a, x = .ok a ∧ g a = b := by
  cases x <;> simp [Except.map, eq_comm]

/-- A fold that can only switch its flag on computes the disjunction of
the initial flag with "some element satisfies the test". -/
theorem foldl_set_true_eq_or {α : Type} (p : α → Bool) (l : List α) (b : Bool) :
    l.foldl (fun acc x => if p x then true else acc) b = (b || l.any p) := by
  induction l generalizing b with
  | nil => simp
  | cons a tl ih =>
    have hstep : (if p a then true else b) = (b || p a) := by
      cases p a <;> simp
    simp only [List.foldl_cons, List.any_cons, hstep, ih]
    cases b <;> cases p a <;> simp

theorem dict_set_of_not_mem {α : Type} {d : List (Option String × α)} {k : Option String}
    (v : α) (h : d.any (fun p => p.1 == k) = false) : dict_set d k v = d ++ [(k, v)] := by
  simp [dict_set, h]

theorem any_key_eq_false_iff {α : Type} {d : List (Option String × α)} {k : Option String} :
    d.any (fun p => p.1 == k) = false ↔ k ∉ d.map Prod.fst := by
  rw [List.any_eq_false]
  constructor
  · intro h hk
    obtain ⟨p, hp, hpk⟩ := List.mem_map.mp hk
    have h2 := h p hp
    simp [hpk] at h2
  · intro h p hp
    simp only [Bool.not_eq_true, beq_eq_false_iff_ne, ne_eq]
    intro hpk
    exact h (List.mem_map.mpr ⟨p, hp, hpk⟩)

theorem RepliesMatch.length_eq {device_id : Option String} {children : List Elem}
    {cmds : List FSCommandKind} {rs : List FSResult}
    (h : RepliesMatch device_id children cmds rs) : rs.length = cmds.length := by
  induction h with
  | nil => rfl
  | cons _ _ _ ih => simp [ih]

/-- The inner loop of `send_command_block` reproduces exactly the matched
results, in order. -/
theorem parse_commands_children_of_match {device_id : Option String}
    {children : List Elem} {cmds : List FSCommandKind} {rs : List FSResult}
    (h : RepliesMatch device_id children cmds rs) :
    parse_commands_children children device_id = .ok rs := by
  induction h with
  | nil => rfl
  | cons hclass hparse _ ih =>
    simp [parse_commands_children, hclass, hparse, ih, Bind.bind, Except.bind]

theorem DevicesMatch.length_ids {cmds : List FSCommandKind} {devices : List Elem}
    {ids : List String} {rss : List (List FSResult)}
    (h : DevicesMatch cmds devices ids rss) :
    ids.length = devices.length ∧ rss.length = ids.length := by
  induction h with
  | nil => exact ⟨rfl, rfl⟩
  | cons _ _ ih => simpa using ih

theorem DevicesMatch.results_length {cmds : List FSCommandKind} {devices : List Elem}
    {ids : List String} {rss : List (List FSResult)}
    (h : DevicesMatch cmds devices ids rss) :
    ∀ rs ∈ rss, rs.length = cmds.length := by
  induction h with
  | nil => intro rs h2; cases h2
  | cons hdev _ ih =>
    intro rs h2
    rcases List.mem_cons.mp h2 with h3 | h3
    · obtain ⟨_, _, _, hrm⟩ := hdev
      exact h3 ▸ hrm.length_eq
    · exact ih rs h3

/-- The device loop of `send_command_block` appends one entry per
matched device, keys and result lists in device order. -/
theorem send_command_block_parse_aux_of_match {cmds : List FSCommandKind}
    {devices : List Elem} {ids : List String} {rss : List (List FSResult)}
    (h : DevicesMatch cmds devices ids rss) (hnodup : ids.Nodup) :
    ∀ acc : List (Option String × List FSResult),
      (∀ id ∈ ids, acc.any (fun p => p.1 == some id) = false) →
      send_command_block_parse_aux devices acc = .ok (acc ++ (ids.map some).zip rss) := by
  induction h with
  | nil => intro acc _; simp [send_command_block_parse_aux]
  | @cons device devId rs devices2 ids2 rss2 hdev hrest ih =>
    intro acc hacc
    obtain ⟨hid, cn, hcn, hrm⟩ := hdev
    have hnd := List.nodup_cons.mp hnodup
    have hfresh : acc.any (fun p => p.1 == some devId) = false :=
      hacc devId (List.mem_cons_self _ _)
    have hparse := parse_commands_children_of_match hrm
    rw [send_command_block_parse_aux, hid, hcn]
    simp only [hparse, Bind.bind, Except.bind]
    rw [dict_set_of_not_mem rs hfresh,
      ih hnd.2 (acc ++ [(some devId, rs)]) ?_]
    · simp
    · intro id hid2
      rw [List.any_append]
      have h1 := hacc id (List.mem_cons_of_mem _ hid2)
      have h2 : devId ≠ id := fun he => hnd.1 (he ▸ hid2)
      simp [h1, h2]

/-- `LsCommand.parse_response` only ever returns a listing or an
`ErrorInfo`. -/
theorem ls_parse_response_shape {response : Elem} {device_id : Option String}
    {fssapiProvided : Bool} {r : FSResult}
    (h : ls_parse_response response device_id fssapiProvided = .ok r) :
    (∃ e, r = .err e) ∨ ∃ i, r = .ls i := by
  unfold ls_parse_response at h
  split at h
  · cases h
  · split at h
    · cases h
    · split at h
      · cases h
      · split at h
        · obtain ⟨e, _, he⟩ := except_map_ok.mp h
          exact Or.inl ⟨e, he.symm⟩
        · rw [except_bind_ok] at h
          obtain ⟨files, _, h2⟩ := h
          rw [except_bind_ok] at h2
          obtain ⟨dirs, _, h3⟩ := h2
          cases h3
          exact Or.inr ⟨_, rfl⟩

/-- One step of the `list_files` device loop, split by branch: the bound
value is a parsed `ErrorInfo` or an `ls` parse result. -/
theorem list_files_parse_aux_cons {device : Elem} {rest : List Elem}
    {acc lst : List (Option String × FSResult)}
    (h : list_files_parse_aux (device :: rest) acc = .ok lst) :
    ∃ value, ((∃ e, value = FSResult.err e) ∨ ∃ i, value = FSResult.ls i) ∧
      list_files_parse_aux rest (dict_set acc (device.attr "id") value) = .ok lst := by
  rw [list_files_parse_aux] at h
  split at h
  · rw [except_bind_ok] at h
    obtain ⟨value, hv, h2⟩ := h
    obtain ⟨e, _, he⟩ := except_map_ok.mp hv
    exact ⟨value, Or.inl ⟨e, he.symm⟩, h2⟩
  · split at h
    · rw [except_bind_ok] at h
      obtain ⟨value, hv, _⟩ := h
      cases hv
    · rw [except_bind_ok] at h
      obtain ⟨value, hv, h2⟩ := h
      exact ⟨value, ls_parse_response_shape hv, h2⟩

/-- Membership in a `dict_set` result: the new value or an old entry. -/
theorem mem_dict_set {α : Type} {d : List (Option String × α)} {k : Option String}
    {v : α} {p : Option String × α} (hp : p ∈ dict_set d k v) :
    p.2 = v ∨ p ∈ d := by
  simp only [dict_set] at hp
  split at hp
  · obtain ⟨q, hq, hqp⟩ := List.mem_map.mp hp
    by_cases hk : (q.1 == k) = true
    · rw [if_pos hk] at hqp
      cases hqp
      exact Or.inl rfl
    · rw [if_neg hk] at hqp
      exact Or.inr (hqp ▸ hq)
  · rcases List.mem_append.mp hp with h3 | h3
    · exact Or.inr h3
    · rcases List.mem_singleton.mp h3 with rfl
      exact Or.inl rfl

/-- Every value of a `list_files` mapping is a listing or an
`ErrorInfo`. -/
theorem list_files_parse_aux_values {devices : List Elem}
    {acc lst : List (Option String × FSResult)}
    (hacc : ∀ p ∈ acc, (∃ e, p.2 = FSResult.err e) ∨ ∃ i, p.2 = FSResult.ls i)
    (h : list_files_parse_aux devices acc = .ok lst) :
    ∀ p ∈ lst, (∃ e, p.2 = FSResult.err e) ∨ ∃ i, p.2 = FSResult.ls i := by
  induction devices generalizing acc with
  | nil =>
    rw [list_files_parse_aux] at h
    cases h
    exact hacc
  | cons device rest ih =>
    obtain ⟨value, hval, h2⟩ := list_files_parse_aux_cons h
    refine ih ?_ h2
    intro p hp
    rcases mem_dict_set hp with h3 | h3
    · exact hval.imp (fun ⟨e, he⟩ => ⟨e, h3 ▸ he⟩) (fun ⟨i, hi⟩ => ⟨i, h3 ▸ hi⟩)
    · exact hacc p h3

/-- `dict_set` keeps the key list unchanged when the key is present and
appends it otherwise; either way distinctness of keys is preserved. -/
theorem dict_set_keys_nodup {α : Type} {d : List (Option String × α)} {k : Option String}
    (v : α) (hd : (d.map Prod.fst).Nodup) : ((dict_set d k v).map Prod.fst).Nodup := by
  simp only [dict_set]
  split
  · have heq : (d.map (fun p => if p.1 == k then (k, v) else p)).map Prod.fst = d.map Prod.fst := by
      rw [List.map_map]
      refine List.map_congr_left ?_
      intro p _
      by_cases hk : p.1 = k <;> simp [hk]
    rw [heq]
    exact hd
  · rename_i hany
    rw [List.map_append]
    simp only [List.map_cons, List.map_nil]
    rw [List.nodup_append]
    refine ⟨hd, List.nodup_singleton _, ?_⟩
    intro a ha hb
    rcases List.mem_singleton.mp hb with rfl
    exact any_key_eq_false_iff.mp (Bool.eq_false_iff.mpr fun ht => hany ht) ha

/-- The keys of a `list_files` mapping are distinct (it is a `dict`). -/
theorem list_files_parse_aux_keys_nodup {devices : List Elem}
    {acc lst : List (Option String × FSResult)}
    (hacc : (acc.map Prod.fst).Nodup)
    (h : list_files_parse_aux devices acc = .ok lst) :
    (lst.map Prod.fst).Nodup := by
  induction devices generalizing acc with
  | nil =>
    rw [list_files_parse_aux] at h
    cases h
    exact hacc
  | cons device rest ih =>
    obtain ⟨value, _, h2⟩ := list_files_parse_aux_cons h
    exact ih (dict_set_keys_nodup value hacc) h2

/-- The per-device flag of `exists` computes "some file matches or some
directory matches". -/
theorem exists_check_device_ls (path2 : String) (info : LsInfo) :
    exists_check_device path2 (.ls info) =
      .ok (Sum.inr (info.files.any (fun f => f.path == some path2) ||
        info.directories.any (fun d => d.path == some path2))) := by
  have h1 : exists_check_device path2 (.ls info) =
      .ok (Sum.inr (info.directories.foldl
        (fun acc cur_dir => if cur_dir.path == some path2 then true else acc)
        (info.files.foldl
          (fun acc cur_file => if cur_file.path == some path2 then true else acc) false))) := rfl
  rw [h1, foldl_set_true_eq_or, foldl_set_true_eq_or]
  simp

/-- The output loop of `exists` transforms a distinct-keyed `list_files`
mapping pointwise: keys are kept, errors pass through, listings map to
the membership flag. -/
theorem exists_post_forall2 {path2 : String} {items : List (Option String × FSResult)} :
    (∀ p ∈ items, (∃ e, p.2 = FSResult.err e) ∨ ∃ i, p.2 = FSResult.ls i) →
    (items.map Prod.fst).Nodup →
    ∀ acc : List (Option String × (ErrorInfo ⊕ Bool)),
      (∀ p ∈ items, acc.any (fun q => q.1 == p.1) = false) →
      ∃ res, exists_post path2 items acc = .ok (acc ++ res) ∧
        List.Forall₂ (fun (a : Option String × FSResult)
          (b : Option String × (ErrorInfo ⊕ Bool)) =>
          a.1 = b.1 ∧ EntryMatches path2 a.2 b.2) items res := by
  induction items with
  | nil =>
    intro _ _ acc _
    exact ⟨[], by simp [exists_post], List.Forall₂.nil⟩
  | cons item rest ih =>
    intro hvals hnodup acc hacc
    obtain ⟨k, data⟩ := item
    have hnd := List.nodup_cons.mp (show (k :: rest.map Prod.fst).Nodup from hnodup)
    have hfresh : acc.any (fun q => q.1 == k) = false :=
      hacc (k, data) (List.mem_cons_self _ _)
    have hvalhead := hvals (k, data) (List.mem_cons_self _ _)
    obtain ⟨r, hr, hmatch⟩ :
        ∃ r, exists_check_device path2 data = .ok r ∧ EntryMatches path2 data r := by
      rcases hvalhead with ⟨e, he⟩ | ⟨i, hi⟩
      · have he2 : data = FSResult.err e := he
        subst he2
        exact ⟨Sum.inl e, rfl, rfl⟩
      · have hi2 : data = FSResult.ls i := hi
        subst hi2
        refine ⟨_, exists_check_device_ls path2 i, ?_⟩
        simp only [EntryMatches, Bool.or_eq_true, List.any_eq_true]
        constructor
        · rintro (⟨f, hf, hfp⟩ | ⟨d, hd2, hdp⟩)
          · exact Or.inl ⟨f, hf, by simpa using hfp⟩
          · exact Or.inr ⟨d, hd2, by simpa using hdp⟩
        · rintro (⟨f, hf, hfp⟩ | ⟨d, hd2, hdp⟩)
          · exact Or.inl ⟨f, hf, by simp [hfp]⟩
          · exact Or.inr ⟨d, hd2, by simp [hdp]⟩
    rw [exists_post]
    simp only [hr, Bind.bind, Except.bind]
    rw [dict_set_of_not_mem r hfresh]
    have hacc2 : ∀ p ∈ rest, ((acc ++ [(k, r)]).any (fun q => q.1 == p.1)) = false := by
      intro p hp
      rw [List.any_append]
      have h1 := hacc p (List.mem_cons_of_mem _ hp)
      have h2 : ¬ k = p.1 := by
        intro he
        exact hnd.1 (by rw [he]; exact List.mem_map.mpr ⟨p, hp, rfl⟩)
      simp [h1, h2]
    obtain ⟨res, hres, hfa⟩ := ih (fun p hp => hvals p (List.mem_cons_of_mem _ hp))
      hnd.2 (acc ++ [(k, r)]) hacc2
    refine ⟨(k, r) :: res, ?_, List.Forall₂.cons ⟨rfl, hmatch⟩ hfa⟩
    rw [hres]
    simp

/-- Reading `completed` after completion: no network call, cache kept. -/
theorem completedRead_cached (r : String) (conn : Conn) :
    completedRead (some r) conn = (true, some r, conn) := rfl

/-- Reading `completed` with an empty cache against a not-yet-complete
reply: one GET, result `False`, cache still empty. -/
theorem completedRead_not_complete {fetch : Nat → PollReply} {j : Nat}
    (h : isCompleteReply (fetch j) = false) :
    completedRead none ⟨fetch, j⟩ = (false, none, ⟨fetch, j + 1⟩) := by
  have hr : completedRead none ⟨fetch, j⟩ =
      (match findDesc (fetch j).dom "status" with
       | some status =>
         if status.text == some "complete" then
           (true, some (fetch j).content, (⟨fetch, j + 1⟩ : Conn))
         else (false, none, ⟨fetch, j + 1⟩)
       | none => (false, none, ⟨fetch, j + 1⟩)) := rfl
  rw [hr]
  unfold isCompleteReply at h
  cases hf : findDesc (fetch j).dom "status" with
  | none => rfl
  | some status =>
    rw [hf] at h
    have h2 : (status.text == some "complete") = false := h
    simp [h2]

/-- Reading `completed` with an empty cache against a complete reply:
one GET, result `True`, the raw body cached. -/
theorem completedRead_complete {fetch : Nat → PollReply} {j : Nat}
    (h : isCompleteReply (fetch j) = true) :
    completedRead none ⟨fetch, j⟩ = (true, some (fetch j).content, ⟨fetch, j + 1⟩) := by
  have hr : completedRead none ⟨fetch, j⟩ =
      (match findDesc (fetch j).dom "status" with
       | some status =>
         if status.text == some "complete" then
           (true, some (fetch j).content, (⟨fetch, j + 1⟩ : Conn))
         else (false, none, ⟨fetch, j + 1⟩)
       | none => (false, none, ⟨fetch, j + 1⟩)) := rfl
  rw [hr]
  unfold isCompleteReply at h
  cases hf : findDesc (fetch j).dom "status" with
  | none => rw [hf] at h; cases h
  | some status =>
    rw [hf] at h
    have h2 : (status.text == some "complete") = true := h
    simp [h2]

/-- While every polled reply is incomplete the cache stays empty and
each read costs exactly one GET. -/
theorem readState_incomplete (fetch : Nat → PollReply) :
    ∀ n j, (∀ i, j ≤ i → i < j + n → isCompleteReply (fetch i) = false) →
      readState n none ⟨fetch, j⟩ = (none, ⟨fetch, j + n⟩) := by
  intro n
  induction n with
  | zero => intro j _; rfl
  | succ n ih =>
    intro j h
    have h0 : isCompleteReply (fetch j) = false := h j le_rfl (by omega)
    have harith : j + 1 + n = j + (n + 1) := by omega
    rw [readState, completedRead_not_complete h0]
    rw [ih (j + 1) (fun i hi1 hi2 => h i (by omega) (by omega))]
    rw [harith]

/-- Once the cache is set it is never rewritten and no further GET is
issued, no matter how many more reads happen. -/
theorem readState_cached (r : String) (conn : Conn) :
    ∀ m, readState m (some r) conn = (some r, conn) := by
  intro m
  induction m with
  | zero => rfl
  | succ m ih => rw [readState, completedRead_cached]; exact ih

theorem str_toList_append (a b : String) : (a ++ b).toList = a.toList ++ b.toList := by
  simp [String.toList]

theorem str_toList_inj {a b : String} (h : a.toList = b.toList) : a = b := by
  cases a
  cases b
  simp only [String.toList] at h
  rw [h]

theorem str_length_zero_iff {s : String} : s.length = 0 ↔ s = "" := by
  constructor
  · intro h
    cases s with
    | mk data =>
      cases data with
      | nil => rfl
      | cons a l => simp [String.length] at h
  · intro h
    subst h
    rfl

/-- `endswith` holds exactly when the string decomposes as prefix plus
the suffix. -/
theorem strEndsWith_iff {path sep : String} :
    strEndsWith path sep = true ↔ ∃ q, path = q ++ sep := by
  unfold strEndsWith
  rw [List.isSuffixOf_iff_suffix]
  constructor
  · rintro ⟨pre, hpre⟩
    refine ⟨String.mk pre, str_toList_inj ?_⟩
    rw [str_toList_append]
    exact hpre.symm
  · rintro ⟨q, rfl⟩
    rw [str_toList_append]
    exact ⟨q.toList, rfl⟩

/-- Stripping after appending one separator recovers the prefix. -/
theorem exists_strip_append {q sep : String} (hsep : sep ≠ "") :
    exists_strip (q ++ sep) sep = q := by
  unfold exists_strip
  rw [if_pos (strEndsWith_iff.mpr ⟨q, rfl⟩), if_neg (fun h0 => hsep (str_length_zero_iff.mp h0))]
  rw [str_toList_append, String.length_append]
  have harith : q.length + sep.length - sep.length = q.toList.length := by
    have hq : q.length = q.toList.length := rfl
    omega
  rw [harith, List.take_left]
  rfl

/-- Without a trailing separator the strip is the identity. -/
theorem exists_strip_of_not_endswith {path sep : String}
    (h : ¬ ∃ q, path = q ++ sep) : exists_strip path sep = path := by
  unfold exists_strip
  rw [if_neg (fun hends => h (strEndsWith_iff.mp hends))]

theorem getLast?_none {α : Type} {l : List α} : l.getLast? = none ↔ l = [] := by
  cases l <;> simp [List.getLast?]

/-- The last-occurrence search fails exactly when the separator occurs
nowhere. -/
theorem lastOccurrence_none_iff {s sep : String} :
    lastOccurrence s.toList sep.toList = none ↔ strContainsSub s sep = false := by
  unfold lastOccurrence strContainsSub
  have hl : s.toList.length = s.length := rfl
  rw [hl, getLast?_none, List.filter_eq_nil_iff, List.any_eq_false]

/-! ## Claim theorems -/

/-- C1: `DeviceTarget`, `AllTarget` and `TagTarget` render to the
grammar's self-closed `TARGET` forms with exactly the supplied
identifying attribute, but `GroupTarget.to_xml` produces an unterminated
open tag `<group path="…">` rather than the self-closed
`<group path="…"/>` the grammar requires, so the claim fails for the
`GroupTarget` variant. -/
theorem c1_target_rendering :
    deviceTarget_to_xml "DEV1" = "<device id=\"DEV1\"/>" ∧
    allTarget_to_xml = "<device id=\"all\"/>" ∧
    tagTarget_to_xml "mytag" = "<device tag=\"mytag\"/>" ∧
    (∀ group : String, groupTarget_to_xml group = "<group path=\"" ++ group ++ "\">") ∧
    strEndsWith (deviceTarget_to_xml "DEV1") "/>" = true ∧
    strEndsWith allTarget_to_xml "/>" = true ∧
    strEndsWith (tagTarget_to_xml "mytag") "/>" = true ∧
    strEndsWith (groupTarget_to_xml "mygroup") "/>" = false ∧
    groupTarget_to_xml "mygroup" ≠ "<group path=\"mygroup\"/>" :=
  ⟨rfl, rfl, rfl, fun _ => rfl, by decide, by decide, by decide, by decide, by decide⟩

/-- C2: rendering of the `send_sci` options.  The `synchronous`, `cache`,
`allowOffline` and `waitForReconnect` booleans do render as
`"true"`/`"false"` attributes and are omitted when `None`, but the claim
fails for the other two options: the flattened `SCI_TEMPLATE` has no
`reply` placeholder, so a supplied `reply` is silently dropped from the
envelope, and any non-`None` `syncTimeout` makes `send_sci` raise
`TypeError` because of the inverted validation, so `syncTimeout` can
never be rendered at all. -/
theorem c2_reply_dropped_sync_timeout_raises :
    send_sci "send_message" [allTarget_to_xml] "<reset/>" (some "all") none none none none none =
      .ok c2Envelope ∧
    replyAttr (some "all") = " reply=\"all\"" ∧
    strContainsSub c2Envelope "reply" = false ∧
    send_sci "send_message" [allTarget_to_xml] "<reset/>" none none (some 10) none none none =
      .error .typeError ∧
    send_sci "send_message" [allTarget_to_xml] "<reset/>" none (some true) none (some false)
        (some true) (some false) =
      .ok ("<sci_request version=\"1.0\"><send_message synchronous=\"true\" cache=\"false\" allowOffline=\"true\" waitForReconnect=\"false\"><targets><device id=\"all\"/></targets><reset/></send_message></sci_request>") :=
  ⟨rfl, rfl, by decide, rfl, rfl⟩

/-- C3: a device subtree holding only a top-level `error` (no `commands`
node) does not short-circuit the block's command slots to an `ErrorInfo`:
`send_command_block` iterates over `device.find('./commands')`, which is
`None` for such a device, so the call raises `TypeError` instead.  The
sibling path `list_files` does implement the claimed behaviour for its
single-command block. -/
theorem c3_device_error_crashes_command_block :
    send_command_block_parse deviceErrorReply = .error .typeError ∧
    list_files_parse deviceErrorReply =
      .ok [(some "00000000-00000000-00409DFF-FF58175B",
        .err ⟨2001, some "Device Not Connected"⟩)] :=
  ⟨rfl, rfl⟩

/-- C7: for every command variant, a reply fragment whose root tag
differs from that command's own command name makes `parse_response`
raise `ResponseParseError`. -/
theorem c7_wrong_root_tag_raises (response : Elem) (device_id : Option String)
    (fssapiProvided : Bool) :
    (response.tag ≠ "ls" →
      ls_parse_response response device_id fssapiProvided = .error .responseParseError) ∧
    (response.tag ≠ "get_file" →
      get_parse_response response = .error .responseParseError) ∧
    (response.tag ≠ "put_file" →
      put_parse_response response = .error .responseParseError) ∧
    (response.tag ≠ "rm" →
      delete_parse_response response = .error .responseParseError) := by
  refine ⟨fun h => ?_, fun h => ?_, fun h => ?_, fun h => ?_⟩
  · simp [ls_parse_response, h]
  · simp [get_parse_response, h]
  · simp [put_parse_response, h]
  · simp [delete_parse_response, h]

/-- Witness for C7 at a concrete foreign fragment. -/
theorem c7_wrong_root_tag_raises_witness :
    ls_parse_response (.mk "bogus" [] none []) (some "A") true = .error .responseParseError ∧
    get_parse_response (.mk "bogus" [] none []) = .error .responseParseError ∧
    put_parse_response (.mk "bogus" [] none []) = .error .responseParseError ∧
    delete_parse_response (.mk "bogus" [] none []) = .error .responseParseError := by
  have h := c7_wrong_root_tag_raises (.mk "bogus" [] none []) (some "A") true
  exact ⟨h.1 (by decide), h.2.1 (by decide), h.2.2.1 (by decide), h.2.2.2 (by decide)⟩

/-- C6: `Put` construction raises `FileSystemServiceException` exactly
when inline data and a server-side file are both supplied or both
absent; with exactly one source it succeeds, and inline data appears
base64-encoded as the text of the `data` child. -/
theorem c6_put_exactly_one_source (path : String) (file_data : Option (List Nat))
    (server_file : Option String) (offset : Option Int) (truncate : Bool) :
    ((put_command_init path file_data server_file offset truncate = .error .fssException) ↔
      file_data.isSome = server_file.isSome) ∧
    (∀ d, file_data = some d → server_file = none →
      ∃ el, put_command_init path file_data server_file offset truncate = .ok el ∧
        findChild el "data" = some (.mk "data" [] (some (b64encode d)) []) ∧
        el.tag = "put_file") ∧
    (∀ sf, file_data = none → server_file = some sf →
      ∃ el, put_command_init path file_data server_file offset truncate = .ok el ∧
        findChild el "file" = some (.mk "file" [] (some sf) []) ∧
        el.tag = "put_file") := by
  refine ⟨?_, ?_, ?_⟩
  · cases file_data <;> cases server_file <;>
      simp [put_command_init, findChild, Elem.children]
  · rintro d rfl rfl
    exact ⟨_, rfl, rfl, rfl⟩
  · rintro sf rfl rfl
    exact ⟨_, rfl, rfl, rfl⟩

/-- Witness for C6: both-or-neither raise; `b"hi"` at offset 4 with
truncation encodes to `aGk=` as in the spec's scenario. -/
theorem c6_put_exactly_one_source_witness :
    put_command_init "f" none none none false = .error .fssException ∧
    put_command_init "f" (some [104, 105]) (some "s") none false = .error .fssException ∧
    (∃ el, put_command_init "f" (some [104, 105]) none (some 4) true = .ok el ∧
      findChild el "data" = some (.mk "data" [] (some "aGk=") []) ∧
      el.tag = "put_file") := by
  refine ⟨?_, ?_, ?_⟩
  · exact (c6_put_exactly_one_source "f" none none none false).1.mpr rfl
  · exact (c6_put_exactly_one_source "f" (some [104, 105]) (some "s") none false).1.mpr rfl
  · exact (c6_put_exactly_one_source "f" (some [104, 105]) none (some 4) true).2.1
      [104, 105] rfl rfl

/-- C10: a reply element under a device's `commands` node whose
lowercased tag matches none of the four command names contributes no
result slot and raises nothing — the loop behaves exactly as if the
element were absent — and "unknown" means precisely that the lowercased
tag is none of `ls`, `get_file`, `put_file`, `rm`. -/
theorem c10_unknown_reply_tags_skipped (pre post : List Elem) (e : Elem)
    (device_id : Option String) (h : classify e.tag = none) :
    parse_commands_children (pre ++ e :: post) device_id =
      parse_commands_children (pre ++ post) device_id ∧
    (∀ tag : String, classify tag = none ↔
      (pyLower tag ≠ "ls" ∧ pyLower tag ≠ "get_file" ∧
        pyLower tag ≠ "put_file" ∧ pyLower tag ≠ "rm")) := by
  constructor
  · induction pre with
    | nil => simp [parse_commands_children, h]
    | cons a pre ih =>
      rw [List.cons_append, List.cons_append, parse_commands_children,
        parse_commands_children]
      cases classify a.tag with
      | none => exact ih
      | some c => rw [ih]
  · intro tag
    rw [classify, List.find?_eq_none]
    constructor
    · intro h2
      refine ⟨fun he => ?_, fun he => ?_, fun he => ?_, fun he => ?_⟩
      · exact h2 .ls (by decide) (by simp [command_name, he])
      · exact h2 .getFile (by decide) (by simp [command_name, he])
      · exact h2 .putFile (by decide) (by simp [command_name, he])
      · exact h2 .rm (by decide) (by simp [command_name, he])
    · rintro ⟨h1, h2, h3, h4⟩ c hc
      cases c <;> simp [command_name] <;>
        first
        | exact fun hh => h1 hh.symm
        | exact fun hh => h2 hh.symm
        | exact fun hh => h3 hh.symm
        | exact fun hh => h4 hh.symm

/-- Witness for C10: a `chmod` reply between an `ls` and an `rm` reply
is ignored. -/
theorem c10_unknown_reply_tags_skipped_witness :
    parse_commands_children [lsReplyElem, .mk "chmod" [] none [], rmReplyElem] (some "A") =
      parse_commands_children [lsReplyElem, rmReplyElem] (some "A") :=
  (c10_unknown_reply_tags_skipped [lsReplyElem] [rmReplyElem]
    (.mk "chmod" [] none []) (some "A") rfl).1

/-- C4: when every addressed device answers with a `commands` node whose
reply elements match the N submitted commands one-to-one in submission
order and all of them parse, `send_command_block` returns exactly one
entry per device (M keys, in response order) whose value is the list of
the N parsed results in submission order. -/
theorem c4_block_success_mapping (root : Elem) (cmds : List FSCommandKind)
    (ids : List String) (rss : List (List FSResult))
    (hmatch : DevicesMatch cmds (root_devices root) ids rss)
    (hnodup : ids.Nodup) :
    send_command_block_parse root = .ok ((ids.map some).zip rss) ∧
    ids.length = (root_devices root).length ∧
    ((ids.map some).zip rss).length = ids.length ∧
    (∀ rs ∈ rss, rs.length = cmds.length) := by
  have hlen := hmatch.length_ids
  refine ⟨?_, hlen.1, ?_, hmatch.results_length⟩
  · have h := send_command_block_parse_aux_of_match hmatch hnodup []
      (by intro id _; rfl)
    simpa [send_command_block_parse] using h
  · rw [List.length_zip, List.length_map, hlen.2]
    simp

/-- Witness for C4: a two-command block answered by two devices. -/
theorem c4_block_success_mapping_witness :
    send_command_block_parse twoDeviceOkReply =
      .ok [(some "A", [.ls (lsInfoFor "A"), .pyNone]),
           (some "B", [.ls (lsInfoFor "B"), .pyNone])] := by
  have hroot : root_devices twoDeviceOkReply = [okDeviceElem "A", okDeviceElem "B"] := rfl
  have hA : DeviceSucceeds (okDeviceElem "A") "A" [.ls, .rm]
      [.ls (lsInfoFor "A"), .pyNone] :=
    ⟨rfl, commandsNodeLsRm, rfl,
      RepliesMatch.cons rfl rfl (RepliesMatch.cons rfl rfl RepliesMatch.nil)⟩
  have hB : DeviceSucceeds (okDeviceElem "B") "B" [.ls, .rm]
      [.ls (lsInfoFor "B"), .pyNone] :=
    ⟨rfl, commandsNodeLsRm, rfl,
      RepliesMatch.cons rfl rfl (RepliesMatch.cons rfl rfl RepliesMatch.nil)⟩
  have h := c4_block_success_mapping twoDeviceOkReply [.ls, .rm] ["A", "B"]
    [[.ls (lsInfoFor "A"), .pyNone], [.ls (lsInfoFor "B"), .pyNone]]
    (by rw [hroot]; exact DevicesMatch.cons hA (DevicesMatch.cons hB DevicesMatch.nil))
    (by decide)
  exact h.1

/-- C5: reads of `completed` return `False` (with one GET each) while
polls report a status other than `complete`; the first read that sees
`complete` returns `True` and caches the raw body; every later read
returns `True` with the cache unchanged and no further GET; a set cache
is never overwritten. -/
theorem c5_async_poll_lifecycle (fetch : Nat → PollReply) (k : Nat)
    (hpend : ∀ i, i < k → isCompleteReply (fetch i) = false)
    (hdone : isCompleteReply (fetch k) = true) :
    (∀ i, i < k →
      readState i none ⟨fetch, 0⟩ = (none, ⟨fetch, i⟩) ∧
      completedRead none ⟨fetch, i⟩ = (false, none, ⟨fetch, i + 1⟩)) ∧
    readState k none ⟨fetch, 0⟩ = (none, ⟨fetch, k⟩) ∧
    completedRead none ⟨fetch, k⟩ = (true, some (fetch k).content, ⟨fetch, k + 1⟩) ∧
    (∀ m, readState m (some (fetch k).content) ⟨fetch, k + 1⟩ =
      (some (fetch k).content, ⟨fetch, k + 1⟩)) ∧
    (∀ r conn, completedRead (some r) conn = (true, some r, conn)) := by
  have hstate : ∀ n, n ≤ k → readState n none ⟨fetch, 0⟩ = (none, ⟨fetch, n⟩) := by
    intro n hn
    have h := readState_incomplete fetch n 0 (fun i h1 h2 => hpend i (by omega))
    simpa using h
  refine ⟨?_, hstate k le_rfl, completedRead_complete hdone,
    fun m => readState_cached _ _ m, fun r conn => completedRead_cached r conn⟩
  intro i hi
  exact ⟨hstate i (by omega), completedRead_not_complete (hpend i hi)⟩

/-- Witness for C5: one `in_progress` poll then a `complete` one. -/
theorem c5_async_poll_lifecycle_witness :
    completedRead none ⟨pollStreamEx, 0⟩ = (false, none, ⟨pollStreamEx, 1⟩) ∧
    completedRead none ⟨pollStreamEx, 1⟩ =
      (true, some (pollStreamEx 1).content, ⟨pollStreamEx, 2⟩) ∧
    readState 5 (some (pollStreamEx 1).content) ⟨pollStreamEx, 2⟩ =
      (some (pollStreamEx 1).content, ⟨pollStreamEx, 2⟩) := by
  have h := c5_async_poll_lifecycle pollStreamEx 1
    (by intro i hi; have h0 : i = 0 := by omega
        subst h0; rfl)
    rfl
  exact ⟨(h.1 0 (by omega)).2, h.2.2.1, h.2.2.2.1 5⟩

/-- C8: `send_sci_async` dispatches through `send_sci` with the
`synchronous` option forced to `false` (the envelope carries the literal
`synchronous="false"` attribute, whatever the caller passed — the caller
value is overwritten before dispatch); a reply with no `jobId`
descendant yields no handle (`None`) without raising, and a reply with a
`jobId` yields a proxy whose `job_id` is the element's text parsed as an
integer. -/
theorem c8_send_sci_async_contract (operation : String) (targets : List String)
    (payload : String) (reply : Option String)
    (cache allow_offline wait_for_reconnect : Option Bool) (respDom : Elem) :
    ∃ env,
      send_sci operation targets payload reply (some false) none cache allow_offline
        wait_for_reconnect = .ok env ∧
      (∃ p s, env = p ++ " synchronous=\"false\"" ++ s) ∧
      (findDesc respDom "jobId" = none →
        send_sci_async operation targets payload reply none cache allow_offline
          wait_for_reconnect respDom = .ok (env, none)) ∧
      (∀ el t n, findDesc respDom "jobId" = some el → el.text = some t →
        pyInt t = .ok n →
        send_sci_async operation targets payload reply none cache allow_offline
          wait_for_reconnect respDom = .ok (env, some ⟨n⟩)) := by
  have hsend : send_sci operation targets payload reply (some false) none cache
      allow_offline wait_for_reconnect =
      .ok (sciTemplateFormat operation " synchronous=\"false\"" (boolAttr "cache" cache) ""
        (boolAttr "allowOffline" allow_offline) (boolAttr "waitForReconnect" wait_for_reconnect)
        (String.join targets) payload) := rfl
  refine ⟨_, hsend, ?_, ?_, ?_⟩
  · refine ⟨"<sci_request version=\"1.0\"><" ++ operation,
      boolAttr "cache" cache ++ "" ++ boolAttr "allowOffline" allow_offline ++
        boolAttr "waitForReconnect" wait_for_reconnect ++ "><targets>" ++
        String.join targets ++ "</targets>" ++ payload ++ "</" ++ operation ++
        "></sci_request>", ?_⟩
    simp [sciTemplateFormat, String.append_assoc]
  · intro h
    unfold send_sci_async
    rw [hsend]
    simp [h, Bind.bind, Except.bind]
  · intro el t n h1 h2 h3
    unfold send_sci_async
    rw [hsend]
    simp [h1, h2, h3, Bind.bind, Except.bind, pyIntOpt]

/-- Witness for C8 on the repo's own fixture shapes: a reply with
`jobId` 133225503 and the no-valid-target reply without one. -/
theorem c8_send_sci_async_contract_witness :
    send_sci_async "send_message" [deviceTarget_to_xml "D"] "<p/>" none none none none
      none jobIdReply = .ok (c8Envelope, some ⟨133225503⟩) ∧
    send_sci_async "send_message" [deviceTarget_to_xml "D"] "<p/>" none none none none
      none noJobIdReply = .ok (c8Envelope, none) := by
  constructor
  · obtain ⟨env, h1, _, _, h4⟩ := c8_send_sci_async_contract "send_message"
      [deviceTarget_to_xml "D"] "<p/>" none none none none jobIdReply
    have h0 : send_sci "send_message" [deviceTarget_to_xml "D"] "<p/>" none (some false)
        none none none none = .ok c8Envelope := rfl
    rw [h1] at h0
    injection h0 with h0
    rw [← h0]
    exact h4 (.mk "jobId" [] (some "133225503") []) "133225503" 133225503 rfl rfl rfl
  · obtain ⟨env, h1, _, h3, _⟩ := c8_send_sci_async_contract "send_message"
      [deviceTarget_to_xml "D"] "<p/>" none none none none noJobIdReply
    have h0 : send_sci "send_message" [deviceTarget_to_xml "D"] "<p/>" none (some false)
        none none none none = .ok c8Envelope := rfl
    rw [h1] at h0
    injection h0 with h0
    rw [← h0]
    exact h3 rfl

/-- C9 (amended): for a nonempty separator, `exists` strips exactly one
trailing occurrence of `path_sep`; if the stripped path contains no
occurrence of the separator the call raises `ValueError` whatever reply
the network would have produced (the failure happens before the
request); otherwise, for every device of the parent-directory listing an
`ErrorInfo` passes through and the result is `True` exactly when some
file or some directory of the listing has the stripped path.  For the
degenerate empty separator the call always raises `ValueError` before
any network request (Python `rsplit` rejects an empty separator), after
`path[:-0]` has discarded the whole path. -/
theorem c9_exists_behaviour (path path_sep : String) :
    (path_sep = "" → ∀ reply, fs_exists path path_sep reply = .error .valueError) ∧
    (path_sep ≠ "" →
      (∀ q, path = q ++ path_sep → exists_strip path path_sep = q) ∧
      ((¬ ∃ q, path = q ++ path_sep) → exists_strip path path_sep = path) ∧
      (strContainsSub (exists_strip path path_sep) path_sep = false →
        ∀ reply, fs_exists path path_sep reply = .error .valueError) ∧
      (strContainsSub (exists_strip path path_sep) path_sep = true →
        ∀ reply lst, list_files_parse reply = .ok lst →
          ∃ out, fs_exists path path_sep reply = .ok out ∧
            List.Forall₂ (fun (a : Option String × FSResult)
              (b : Option String × (ErrorInfo ⊕ Bool)) =>
              a.1 = b.1 ∧ EntryMatches (exists_strip path path_sep) a.2 b.2) lst out)) := by
  constructor
  · intro h reply
    subst h
    rfl
  · intro hsep
    have hlen : ¬ path_sep.length = 0 := fun h0 => hsep (str_length_zero_iff.mp h0)
    refine ⟨?_, ?_, ?_, ?_⟩
    · rintro q rfl
      exact exists_strip_append hsep
    · exact exists_strip_of_not_endswith
    · intro h2 reply
      have hlo : lastOccurrence (exists_strip path path_sep).toList path_sep.toList = none :=
        lastOccurrence_none_iff.mpr h2
      have hrs : py_rsplit_once (exists_strip path path_sep) path_sep =
          .error .valueError := by
        unfold py_rsplit_once
        rw [if_neg hlen, hlo]
      have hps : exists_presplit path path_sep = .error .valueError := by
        unfold exists_presplit
        simp only [hrs, Bind.bind, Except.bind]
      unfold fs_exists
      rw [hps]
      rfl
    · intro h2 reply lst hlst
      obtain ⟨i, hi⟩ : ∃ i,
          lastOccurrence (exists_strip path path_sep).toList path_sep.toList = some i := by
        cases hl : lastOccurrence (exists_strip path path_sep).toList path_sep.toList with
        | none =>
          rw [lastOccurrence_none_iff.mp hl] at h2
          cases h2
        | some i => exact ⟨i, rfl⟩
      have hrs : py_rsplit_once (exists_strip path path_sep) path_sep =
          .ok (String.mk ((exists_strip path path_sep).toList.take i),
            String.mk ((exists_strip path path_sep).toList.drop (i + path_sep.length))) := by
        unfold py_rsplit_once
        rw [if_neg hlen, hi]
      have hps : exists_presplit path path_sep =
          .ok (String.mk ((exists_strip path path_sep).toList.take i),
            exists_strip path path_sep) := by
        unfold exists_presplit
        simp only [hrs, Bind.bind, Except.bind]
      have hlst2 : list_files_parse_aux (root_devices reply) [] = .ok lst := hlst
      have hvals := list_files_parse_aux_values (by intro p hp; cases hp) hlst2
      have hkeys := list_files_parse_aux_keys_nodup (by simp) hlst2
      obtain ⟨res, hres, hfa⟩ := exists_post_forall2 hvals hkeys [] (by intro p _; rfl)
      refine ⟨res, ?_, hfa⟩
      unfold fs_exists
      rw [hps, hlst]
      simpa [Bind.bind, Except.bind] using hres

/-- C9 counterexample: at `path = "a/b"`, `path_sep = ""` the claim's
description fails on the code: stripping "exactly one trailing
occurrence" of the empty separator would leave `"a/b"`, which contains
an occurrence of the separator, so the claim says the call proceeds to
the listing — but the code reduces the path to the empty string via
`path[:-0]` and raises `ValueError` before any request. -/
theorem c9_exists_counterexample :
    strContainsSub "a/b" "" = true ∧
    exists_strip "a/b" "" = "" ∧
    fs_exists "a/b" "" oneDeviceLsReply = .error .valueError :=
  ⟨by decide, rfl, rfl⟩

/-- Witness for C9 at `exists(target, "/a/f", "/")` against a listing
holding the file `/a/f`. -/
theorem c9_exists_behaviour_witness :
    ∃ out, fs_exists "/a/f" "/" oneDeviceLsReply = .ok out ∧
      List.Forall₂ (fun (a : Option String × FSResult)
        (b : Option String × (ErrorInfo ⊕ Bool)) =>
        a.1 = b.1 ∧ EntryMatches (exists_strip "/a/f" "/") a.2 b.2)
        [(some "A", FSResult.ls (lsInfoFor "A"))] out := by
  have h := (c9_exists_behaviour "/a/f" "/").2 (by decide)
  exact h.2.2.2 (by decide) oneDeviceLsReply [(some "A", FSResult.ls (lsInfoFor "A"))] rfl
